import Mathlib

/-!
Shallow embedding of `src/escape_qubits.py` (the gameplay core: `Qubit` and
`Game`), with time modelled by rationals and all random draws passed in
explicitly as oracle inputs, following the spec's design note that
time-driven random spawning be represented as a pure function of
`(state, now, rng draws)`.

Rendering/input glue (pygame calls, drawing, event polling) is out of the
gameplay core and is not embedded.
-/

namespace EscapeQubits

/-- `GRID_COLS = 10`. -/
def GRID_COLS : ℕ := 10

/-- `GRID_ROWS = 10`. -/
def GRID_ROWS : ℕ := 10

/-- `TOTAL_TIME = 45.0` seconds. -/
def TOTAL_TIME : ℚ := 45

/-- `MAX_ACTIVE_QUBITS = 6`. -/
def MAX_ACTIVE_QUBITS : ℕ := 6

/-- `SPAWN_INTERVAL_MIN = 0.4` seconds. -/
def SPAWN_INTERVAL_MIN : ℚ := 2/5

/-- `SPAWN_INTERVAL_MAX = 1.1` seconds. -/
def SPAWN_INTERVAL_MAX : ℚ := 11/10

/-- `QUBIT_LIFETIME = 1.2` seconds. -/
def QUBIT_LIFETIME : ℚ := 6/5

/-- A grid position `(col, row)`, as in the Python tuples. -/
abbrev Pos := ℤ × ℤ

/-- `Qubit.__init__`: `grid_pos`, `spawn_time`, `lifetime` (`lifetime`
defaults to `QUBIT_LIFETIME` at every construction site in the source). -/
structure Qubit where
  grid_pos : Pos
  spawn_time : ℚ
  lifetime : ℚ
deriving DecidableEq, Repr

/-- `Qubit.age`: `now - self.spawn_time`. -/
def Qubit.age (q : Qubit) (now : ℚ) : ℚ :=
  now - q.spawn_time

/-- `Qubit.is_alive`: `self.age(now) < self.lifetime`. -/
def Qubit.is_alive (q : Qubit) (now : ℚ) : Bool :=
  q.age now < q.lifetime

/-- `Qubit.alpha`: `frac = max(0.0, min(1.0, age/lifetime))`, returning
`int(255 * (1.0 - frac))`.  Since `255 * (1 - frac)` is nonnegative,
Python's truncating `int()` agrees with the floor. -/
def Qubit.alpha (q : Qubit) (now : ℚ) : ℤ :=
  let a := q.age now
  let frac := max 0 (min 1 (a / q.lifetime))
  ⌊255 * (1 - frac)⌋

/-- The mutable state of `Game`: the fields assigned in `Game.__init__`
and `Game.reset` that the gameplay logic reads or writes (screen, fonts
and clock are rendering collaborators and are omitted). -/
structure GameState where
  start : Pos
  goal : Pos
  player : Pos
  qubits : List Qubit
  start_time : ℚ
  next_spawn_time : ℚ
  running : Bool
  win : Bool
  lose : Bool
  pause : Bool
deriving DecidableEq, Repr

/-- `Game.reset`: player back to start, qubits cleared, timers
reinitialized (`now` stands for the sampled `time.time()` and `d` for the
`random.uniform(SPAWN_INTERVAL_MIN, SPAWN_INTERVAL_MAX)` draw), flags set
to the Playing configuration. -/
def GameState.reset (now d : ℚ) (g : GameState) : GameState :=
  { g with
    player := g.start
    qubits := []
    start_time := now
    next_spawn_time := now + d
    running := true
    win := false
    lose := false
    pause := false }

/-- The pair `c = random.randrange(GRID_COLS)`, `r =
random.randrange(GRID_ROWS)` drawn in iteration `i` of the retry loop of
`Game.spawn_qubit`: the oracle value is reduced modulo the grid
dimensions, exactly as `randrange` bounds its result. -/
def candidate (draws : ℕ → ℕ × ℕ) (i : ℕ) : Pos :=
  (((draws i).1 % GRID_COLS : ℕ), ((draws i).2 % GRID_ROWS : ℕ))

/-- The retry loop of `Game.spawn_qubit` (`while tries < 50`): `fuel` is
the number of remaining attempts (initially 50) and `i` indexes the
stream of random draws.  An attempt is rejected when it hits the goal
tile or a tile already holding an alive qubit; a successful attempt
appends `Qubit(candidate, now)` with the default lifetime. -/
def spawnAttempts (draws : ℕ → ℕ × ℕ) (now : ℚ) (goal : Pos)
    (qubits : List Qubit) : ℕ → ℕ → List Qubit
  | 0, _ => qubits
  | fuel + 1, i =>
    if candidate draws i = goal then
      spawnAttempts draws now goal qubits fuel (i + 1)
    else if qubits.any
        (fun q => q.grid_pos = candidate draws i && q.is_alive now) then
      spawnAttempts draws now goal qubits fuel (i + 1)
    else
      qubits ++ [⟨candidate draws i, now, QUBIT_LIFETIME⟩]

/-- `Game.spawn_qubit`: returns immediately when
`len(self.qubits) >= MAX_ACTIVE_QUBITS`, otherwise runs the bounded retry
loop (up to 50 attempts, silently doing nothing on exhaustion). -/
def GameState.spawn_qubit (draws : ℕ → ℕ × ℕ) (now : ℚ) (g : GameState) :
    GameState :=
  if MAX_ACTIVE_QUBITS ≤ g.qubits.length then g
  else { g with qubits := spawnAttempts draws now g.goal g.qubits 50 0 }

/-- The in-bounds test of `Game.try_move`:
`0 <= new_c < GRID_COLS and 0 <= new_r < GRID_ROWS`. -/
def inBounds (p : Pos) : Prop :=
  0 ≤ p.1 ∧ p.1 < (GRID_COLS : ℤ) ∧ 0 ≤ p.2 ∧ p.2 < (GRID_ROWS : ℤ)

instance (p : Pos) : Decidable (inBounds p) := by
  unfold inBounds; infer_instance

/-- `Game.try_move`: no-op unless `self.running and not self.pause`;
computes the candidate cell, rejects it when out of bounds, otherwise
commits the move and then — in this order — checks collision with any
alive qubit at the new cell (lose) and arrival at the goal (win).
`now` stands for the `time.time()` sampled inside the method. -/
def GameState.try_move (dx dy : ℤ) (now : ℚ) (g : GameState) : GameState :=
  if g.running && !g.pause then
    let new_c := g.player.1 + dx
    let new_r := g.player.2 + dy
    if inBounds (new_c, new_r) then
      let player : Pos := (new_c, new_r)
      if g.qubits.any (fun q => q.grid_pos = player && q.is_alive now) then
        { g with player := player, lose := true, running := false }
      else if player = g.goal then
        { g with player := player, win := true, running := false }
      else
        { g with player := player }
    else g
  else g

/-- `Game.update`: spawns when `now >= self.next_spawn_time and
self.running` (rescheduling `next_spawn_time` with the uniform draw `d`),
purges dead qubits, then checks collision of an alive qubit with the
player's tile (early return on lose, skipping the timer check), and
finally the timer (`TOTAL_TIME - elapsed <= 0`).  In the source the
per-qubit collision condition also tests `self.running`, which is
constant across the loop, so it is hoisted in front of the search. -/
def GameState.update (draws : ℕ → ℕ × ℕ) (d now : ℚ) (g : GameState) :
    GameState :=
  let g1 :=
    if g.next_spawn_time ≤ now ∧ g.running then
      let g' := g.spawn_qubit draws now
      { g' with next_spawn_time := now + d }
    else g
  let g2 := { g1 with qubits := g1.qubits.filter (fun q => q.is_alive now) }
  if g2.running &&
      g2.qubits.any (fun q => q.grid_pos = g2.player && q.is_alive now) then
    { g2 with lose := true, running := false }
  else if TOTAL_TIME - (now - g2.start_time) ≤ 0 ∧ g2.running then
    { g2 with lose := true, running := false }
  else g2

/-- `Game.__init__`: `start = (0, GRID_ROWS - 1)`, `goal =
(GRID_COLS - 1, 0)`, then `self.reset()` (with its sampled time `now`
and uniform draw `d`).  The pre-`reset` values of the remaining fields
are irrelevant since `reset` overwrites every one of them. -/
def mkGame (now d : ℚ) : GameState :=
  GameState.reset now d
    { start := (0, (GRID_ROWS : ℤ) - 1)
      goal := ((GRID_COLS : ℤ) - 1, 0)
      player := (0, 0)
      qubits := []
      start_time := 0
      next_spawn_time := 0
      running := false
      win := false
      lose := false
      pause := false }

/-- The coarse phase of the spec's data model, derived from the three
flags the source keeps (`win`, `lose`, `running`). -/
inductive Phase where
  | Playing
  | Won
  | Lost
deriving DecidableEq, Repr

/-- Projection of the source's flags onto the spec's phase enum. -/
def GameState.phase (g : GameState) : Phase :=
  if g.win then Phase.Won else if g.lose then Phase.Lost else Phase.Playing

/-- States reachable from a freshly constructed game by any sequence of
`try_move`, `update` and `reset` calls, over arbitrary times and random
draws. -/
inductive Reachable : GameState → Prop
  | init (now d : ℚ) : Reachable (mkGame now d)
  | move {g} (dx dy : ℤ) (now : ℚ) :
      Reachable g → Reachable (g.try_move dx dy now)
  | upd {g} (draws : ℕ → ℕ × ℕ) (d now : ℚ) :
      Reachable g → Reachable (g.update draws d now)
  | rst {g} (now d : ℚ) :
      Reachable g → Reachable (g.reset now d)

/-! ### Helper lemmas about the spawn loop -/

/-- Each run of the retry loop either leaves the qubit list unchanged or
appends exactly one token, spawned at `now` with the default lifetime. -/
theorem spawnAttempts_eq_or_append (draws : ℕ → ℕ × ℕ) (now : ℚ)
    (goal : Pos) (qubits : List Qubit) (fuel i : ℕ) :
    spawnAttempts draws now goal qubits fuel i = qubits ∨
      ∃ p : Pos, spawnAttempts draws now goal qubits fuel i =
        qubits ++ [⟨p, now, QUBIT_LIFETIME⟩] := by
  induction fuel generalizing i with
  | zero => exact Or.inl rfl
  | succ fuel ih =>
    unfold spawnAttempts
    split
    · exact ih (i + 1)
    · split
      · exact ih (i + 1)
      · exact Or.inr ⟨candidate draws i, rfl⟩

/-- The retry loop grows the qubit list by at most one element. -/
theorem spawnAttempts_length_le (draws : ℕ → ℕ × ℕ) (now : ℚ) (goal : Pos)
    (qubits : List Qubit) (fuel i : ℕ) :
    (spawnAttempts draws now goal qubits fuel i).length ≤
      qubits.length + 1 := by
  rcases spawnAttempts_eq_or_append draws now goal qubits fuel i with h | ⟨p, h⟩
  · rw [h]; omega
  · rw [h]; simp

/-- If every one of the first `fuel` attempts starting at index `i` is
rejected (goal tile or occupied by an alive qubit), the retry loop
returns the qubit list unchanged. -/
theorem spawnAttempts_exhausted (draws : ℕ → ℕ × ℕ) (now : ℚ) (goal : Pos)
    (qubits : List Qubit) (fuel i : ℕ)
    (h : ∀ j, i ≤ j → j < i + fuel →
      candidate draws j = goal ∨
        qubits.any
          (fun q => q.grid_pos = candidate draws j && q.is_alive now)) :
    spawnAttempts draws now goal qubits fuel i = qubits := by
  induction fuel generalizing i with
  | zero => rfl
  | succ fuel ih =>
    unfold spawnAttempts
    have hrec := ih (i + 1) (fun j h1 h2 => h j (by omega) (by omega))
    rcases h i (le_refl i) (by omega) with hg | hocc
    · rw [if_pos hg]
      exact hrec
    · by_cases hg2 : candidate draws i = goal
      · rw [if_pos hg2]
        exact hrec
      · rw [if_neg hg2, if_pos hocc]
        exact hrec

/-- `spawn_qubit` only changes the `qubits` field. -/
theorem spawn_qubit_shape (draws : ℕ → ℕ × ℕ) (now : ℚ) (g : GameState) :
    ∃ qs : List Qubit,
      g.spawn_qubit draws now = { g with qubits := qs } := by
  unfold GameState.spawn_qubit
  split
  · exact ⟨g.qubits, rfl⟩
  · exact ⟨_, rfl⟩

/-- `spawn_qubit` preserves the cap on the number of active qubits. -/
theorem spawn_qubit_length_le (draws : ℕ → ℕ × ℕ) (now : ℚ) (g : GameState)
    (h : g.qubits.length ≤ MAX_ACTIVE_QUBITS) :
    (g.spawn_qubit draws now).qubits.length ≤ MAX_ACTIVE_QUBITS := by
  unfold GameState.spawn_qubit
  split
  · exact h
  · rename_i hlt
    have h1 := spawnAttempts_length_le draws now g.goal g.qubits 50 0
    simp only []
    omega

/-- Every qubit present after `spawn_qubit` was already present or was
spawned at `now` with the default lifetime `QUBIT_LIFETIME`. -/
theorem spawn_qubit_mem (draws : ℕ → ℕ × ℕ) (now : ℚ) (g : GameState)
    (q : Qubit) (hq : q ∈ (g.spawn_qubit draws now).qubits) :
    q ∈ g.qubits ∨ (q.spawn_time = now ∧ q.lifetime = QUBIT_LIFETIME) := by
  unfold GameState.spawn_qubit at hq
  split at hq
  · exact Or.inl hq
  · rcases spawnAttempts_eq_or_append draws now g.goal g.qubits 50 0 with
      h | ⟨p, h⟩
    · simp only [h] at hq
      exact Or.inl hq
    · simp only [h, List.mem_append, List.mem_singleton] at hq
      rcases hq with hq | hq
      · exact Or.inl hq
      · subst hq
        exact Or.inr ⟨rfl, rfl⟩

/-! ### Helper lemmas about `update` -/

/-- `update` only changes the `qubits`, `next_spawn_time`, `running` and
`lose` fields. -/
theorem update_shape (draws : ℕ → ℕ × ℕ) (d now : ℚ) (g : GameState) :
    ∃ (qs : List Qubit) (ns : ℚ) (r l : Bool),
      g.update draws d now =
        { g with qubits := qs, next_spawn_time := ns,
                 running := r, lose := l } := by
  unfold GameState.update
  obtain ⟨qs0, hqs0⟩ := spawn_qubit_shape draws now g
  simp only [hqs0]
  repeat' split
  all_goals exact ⟨_, _, _, _, rfl⟩

/-- The qubit list returned by `update` is a filter by liveness at `now`
of some list. -/
theorem update_qubits_eq (draws : ℕ → ℕ × ℕ) (d now : ℚ) (g : GameState) :
    ∃ l : List Qubit, (g.update draws d now).qubits =
      l.filter (fun q => q.is_alive now) := by
  unfold GameState.update
  obtain ⟨qs0, hqs0⟩ := spawn_qubit_shape draws now g
  simp only [hqs0]
  repeat' split
  all_goals exact ⟨_, rfl⟩

/-- Every qubit still present after `update` is alive at `now`. -/
theorem update_mem_alive (draws : ℕ → ℕ × ℕ) (d now : ℚ) (g : GameState)
    (q : Qubit) (hq : q ∈ (g.update draws d now).qubits) :
    q.is_alive now = true := by
  obtain ⟨l, hl⟩ := update_qubits_eq draws d now g
  rw [hl] at hq
  exact (List.mem_filter.mp hq).2

/-- The fields of the game that `update` never writes. -/
theorem update_frame (draws : ℕ → ℕ × ℕ) (d now : ℚ) (g : GameState) :
    (g.update draws d now).player = g.player ∧
    (g.update draws d now).start = g.start ∧
    (g.update draws d now).goal = g.goal ∧
    (g.update draws d now).start_time = g.start_time ∧
    (g.update draws d now).pause = g.pause ∧
    (g.update draws d now).win = g.win := by
  obtain ⟨qs, ns, r, l, h⟩ := update_shape draws d now g
  rw [h]
  exact ⟨rfl, rfl, rfl, rfl, rfl, rfl⟩

/-- When the game is not running, `update` leaves all three flags alone
(it still purges dead qubits). -/
theorem update_not_running (draws : ℕ → ℕ × ℕ) (d now : ℚ) (g : GameState)
    (h : g.running = false) :
    (g.update draws d now).running = false ∧
    (g.update draws d now).win = g.win ∧
    (g.update draws d now).lose = g.lose := by
  unfold GameState.update
  simp [h]

/-- The flags after `update`: `win` is never written, and either
`running` and `lose` are unchanged, or the game was running and `update`
transitioned it to `running = false`, `lose = true`. -/
theorem update_flags (draws : ℕ → ℕ × ℕ) (d now : ℚ) (g : GameState) :
    (g.update draws d now).win = g.win ∧
    (((g.update draws d now).running = g.running ∧
        (g.update draws d now).lose = g.lose) ∨
      (g.running = true ∧ (g.update draws d now).running = false ∧
        (g.update draws d now).lose = true)) := by
  by_cases h : g.running = true
  · unfold GameState.update
    obtain ⟨qs0, hqs0⟩ := spawn_qubit_shape draws now g
    simp only [hqs0, h]
    repeat' split
    all_goals simp_all
  · have h2 : g.running = false := by simpa using h
    have h3 := update_not_running draws d now g h2
    exact ⟨h3.2.1, Or.inl ⟨by rw [h3.1, h2], h3.2.2⟩⟩

/-- When the game is running and the time budget is exhausted, `update`
ends the run with `lose = true` (either through the timer check or, when
a qubit sits on the player's tile, through the collision check that
precedes it). -/
theorem update_timeout (draws : ℕ → ℕ × ℕ) (d now : ℚ) (g : GameState)
    (hrun : g.running = true) (h : TOTAL_TIME - (now - g.start_time) ≤ 0) :
    (g.update draws d now).running = false ∧
    (g.update draws d now).lose = true := by
  unfold GameState.update
  obtain ⟨qs0, hqs0⟩ := spawn_qubit_shape draws now g
  simp only [hqs0, hrun]
  repeat' split
  all_goals simp_all

/-! ### The reachable-state invariant -/

/-- Invariant maintained by every operation of the game: the start and
goal tiles are the ones fixed by `Game.__init__`, the player is in
bounds, the qubit count respects the cap, and the three flags are
coherent (`running` holds exactly when neither `win` nor `lose` does,
and `win` and `lose` are never both set). -/
def Inv (g : GameState) : Prop :=
  g.start = (0, (GRID_ROWS : ℤ) - 1) ∧
  g.goal = ((GRID_COLS : ℤ) - 1, 0) ∧
  inBounds g.player ∧
  g.qubits.length ≤ MAX_ACTIVE_QUBITS ∧
  g.running = (!g.win && !g.lose) ∧
  (g.win && g.lose) = false

/-- `update` preserves the cap on the number of active qubits. -/
theorem update_length_le (draws : ℕ → ℕ × ℕ) (d now : ℚ) (g : GameState)
    (h : g.qubits.length ≤ MAX_ACTIVE_QUBITS) :
    (g.update draws d now).qubits.length ≤ MAX_ACTIVE_QUBITS := by
  unfold GameState.update
  have hs := spawn_qubit_length_le draws now g h
  obtain ⟨qs0, hqs0⟩ := spawn_qubit_shape draws now g
  rw [hqs0] at hs
  simp only [List.length] at hs
  simp only [hqs0]
  repeat' split
  all_goals
    exact le_trans (List.length_filter_le _ _) (by first | exact hs | exact h)

/-- A fresh game satisfies the invariant. -/
theorem inv_mkGame (now d : ℚ) : Inv (mkGame now d) := by
  refine ⟨rfl, rfl, ?_, ?_, rfl, rfl⟩
  · show inBounds (0, (GRID_ROWS : ℤ) - 1)
    decide
  · show List.length [] ≤ MAX_ACTIVE_QUBITS
    decide

/-- `reset` preserves the invariant. -/
theorem inv_reset (now d : ℚ) (g : GameState) (h : Inv g) :
    Inv (g.reset now d) := by
  obtain ⟨hs, hg, hp, hq, hr, hw⟩ := h
  refine ⟨hs, hg, ?_, by simp [GameState.reset], rfl, rfl⟩
  show inBounds g.start
  rw [hs]
  decide

/-- `try_move` preserves the invariant. -/
theorem inv_try_move (dx dy : ℤ) (now : ℚ) (g : GameState) (h : Inv g) :
    Inv (g.try_move dx dy now) := by
  obtain ⟨hs, hg, hp, hq, hr, hw⟩ := h
  unfold GameState.try_move
  split
  · rename_i hguard
    have hrun : g.running = true := by
      cases hb : g.running <;> simp [hb] at hguard ⊢
    have hwin : g.win = false := by
      rw [hrun] at hr
      cases hb : g.win <;> simp [hb] at hr ⊢
    have hlose : g.lose = false := by
      rw [hrun, hwin] at hr
      cases hb : g.lose <;> simp [hb] at hr ⊢
    dsimp only
    split
    · rename_i hin
      split
      · exact ⟨hs, hg, hin, hq, by simp [hwin], by simp [hwin]⟩
      · split
        · exact ⟨hs, hg, hin, hq, by simp [hlose], by simp [hlose]⟩
        · exact ⟨hs, hg, hin, hq, hr, hw⟩
    · exact ⟨hs, hg, hp, hq, hr, hw⟩
  · exact ⟨hs, hg, hp, hq, hr, hw⟩

/-- `update` preserves the invariant. -/
theorem inv_update (draws : ℕ → ℕ × ℕ) (d now : ℚ) (g : GameState)
    (h : Inv g) : Inv (g.update draws d now) := by
  obtain ⟨hs, hg, hp, hq, hr, hw⟩ := h
  obtain ⟨hfp, hfs, hfg, hft, hfpa, hfw⟩ := update_frame draws d now g
  obtain ⟨hw2, hfl⟩ := update_flags draws d now g
  refine ⟨by rw [hfs, hs], by rw [hfg, hg], by rw [hfp]; exact hp,
    update_length_le draws d now g hq, ?_, ?_⟩
  · rcases hfl with ⟨h1, h2⟩ | ⟨h1, h2, h3⟩
    · rw [h1, h2, hw2, hr]
    · rw [h2, hw2, h3]
      simp
  · rcases hfl with ⟨h1, h2⟩ | ⟨h1, h2, h3⟩
    · rw [h2, hw2]
      exact hw
    · have hwin : g.win = false := by
        rw [h1] at hr
        cases hb : g.win <;> simp [hb] at hr ⊢
      rw [h3, hw2, hwin]
      simp

/-- Every reachable state satisfies the invariant. -/
theorem reachable_inv {g : GameState} (h : Reachable g) : Inv g := by
  induction h with
  | init now d => exact inv_mkGame now d
  | move dx dy now _ ih => exact inv_try_move dx dy now _ ih
  | upd draws d now _ ih => exact inv_update draws d now _ ih
  | rst now d _ ih => exact inv_reset now d _ ih

/-! ### Claims -/

/-- Clamping to `[0, 1]` commutes with reflection at `1`:
`1 - clamp(x, 0, 1) = clamp(1 - x, 0, 1)`. -/
theorem one_sub_clamp (x : ℚ) :
    1 - max 0 (min 1 x) = max 0 (min 1 (1 - x)) := by
  rcases le_total x 0 with h | h
  · rw [min_eq_right (h.trans (by norm_num)), max_eq_left h,
      min_eq_left (by linarith), max_eq_right (by norm_num)]
    ring
  · rcases le_total x 1 with h2 | h2
    · rw [min_eq_right h2, max_eq_right h, min_eq_right (by linarith),
        max_eq_right (by linarith)]
    · rw [min_eq_left h2, max_eq_right (by norm_num : (0:ℚ) ≤ 1),
        min_eq_right (by linarith), max_eq_left (by linarith)]
      ring

/-- The spec's derived fade-alpha attribute, written from the spec's
words: `fadeAlpha = clamp(1 - age/lifetime, 0, 1)`, a `[0, 1]`-valued
opacity. -/
def fadeAlphaSpec (q : Qubit) (now : ℚ) : ℚ :=
  max 0 (min 1 (1 - (now - q.spawn_time) / q.lifetime))

/-- Claim C7: `Qubit`'s queries are pure functions of
`(spawn_time, lifetime, now)`: `is_alive now` is exactly the test
`now - spawn_time < lifetime`, and the rendered alpha is the spec's
`clamp(1 - (now - spawn_time)/lifetime, 0, 1)` opacity expressed on the
source's 0–255 integer scale (the code's `int(255 * (1.0 - frac))`,
truncation agreeing with the floor since the operand is nonnegative). -/
theorem claim7_qubit_queries (q : Qubit) (now : ℚ) :
    q.is_alive now = decide (now - q.spawn_time < q.lifetime) ∧
    q.alpha now = ⌊255 * fadeAlphaSpec q now⌋ := by
  refine ⟨rfl, ?_⟩
  show ⌊255 * (1 - max 0 (min 1 ((now - q.spawn_time) / q.lifetime)))⌋ =
    ⌊255 * fadeAlphaSpec q now⌋
  rw [one_sub_clamp]
  rfl

/-- Claim C8: `reset` always yields a state in phase Playing with no
active hazards, the player back on the start tile, and both timers
reinitialized from the sampled time `now` (and uniform draw `d`). -/
theorem claim8_reset (g : GameState) (now d : ℚ) :
    (g.reset now d).phase = Phase.Playing ∧
    (g.reset now d).qubits = [] ∧
    (g.reset now d).player = g.start ∧
    (g.reset now d).start_time = now ∧
    (g.reset now d).next_spawn_time = now + d ∧
    (g.reset now d).running = true :=
  ⟨rfl, rfl, rfl, rfl, rfl, rfl⟩

/-- Claim C10: `update` never writes the player position, the start
tile, the goal tile, the run's start time, or the pause flag — the only
fields it can change are the qubit list, the next spawn time, and the
`running`/`lose` flags, so the player token moves only through
`try_move`. -/
theorem claim10_advance_frame (g : GameState) (draws : ℕ → ℕ × ℕ)
    (d now : ℚ) :
    (g.update draws d now).player = g.player ∧
    (g.update draws d now).start = g.start ∧
    (g.update draws d now).goal = g.goal ∧
    (g.update draws d now).start_time = g.start_time ∧
    (g.update draws d now).pause = g.pause ∧
    ∃ (qs : List Qubit) (ns : ℚ) (r l : Bool),
      g.update draws d now =
        { g with qubits := qs, next_spawn_time := ns,
                 running := r, lose := l } := by
  obtain ⟨h1, h2, h3, h4, h5, _⟩ := update_frame draws d now g
  exact ⟨h1, h2, h3, h4, h5, update_shape draws d now g⟩

/-- Claim C3: in every reachable state the player position lies within
`[0, GRID_COLS) x [0, GRID_ROWS)`, and a `try_move` whose candidate
destination is out of bounds leaves the player position unchanged. -/
theorem claim3_player_in_bounds (g : GameState) (dx dy : ℤ) (now : ℚ)
    (h : Reachable g)
    (hout : ¬ inBounds (g.player.1 + dx, g.player.2 + dy)) :
    inBounds g.player ∧ (g.try_move dx dy now).player = g.player := by
  obtain ⟨_, _, hp, _, _, _⟩ := reachable_inv h
  refine ⟨hp, ?_⟩
  unfold GameState.try_move
  split
  · dsimp only
    rw [if_neg hout]
  · rfl

/-- Witness for C3 at the freshly constructed game and a move off the
left edge of the grid. -/
theorem claim3_witness :
    inBounds (mkGame 0 0).player ∧
    ((mkGame 0 0).try_move (-1) 0 0).player = (mkGame 0 0).player :=
  claim3_player_in_bounds (mkGame 0 0) (-1) 0 0 (Reachable.init 0 0)
    (by decide)

/-- Claim C5: in every reachable state the number of active qubits is at
most `MAX_ACTIVE_QUBITS`; the bound still holds after any further
`update` call, and `spawn_qubit` is a no-op whenever the count is
already at or above the cap. -/
theorem claim5_hazard_cap (g : GameState) (draws : ℕ → ℕ × ℕ)
    (d now : ℚ) (h : Reachable g) :
    g.qubits.length ≤ MAX_ACTIVE_QUBITS ∧
    (g.update draws d now).qubits.length ≤ MAX_ACTIVE_QUBITS ∧
    (MAX_ACTIVE_QUBITS ≤ g.qubits.length → g.spawn_qubit draws now = g) := by
  obtain ⟨_, _, _, hq, _, _⟩ := reachable_inv h
  refine ⟨hq, update_length_le draws d now g hq, fun hge => ?_⟩
  unfold GameState.spawn_qubit
  rw [if_pos hge]

/-- Witness for C5 at the freshly constructed game. -/
theorem claim5_witness :
    (mkGame 0 0).qubits.length ≤ MAX_ACTIVE_QUBITS ∧
    ((mkGame 0 0).update (fun _ => (0, 0)) 0 0).qubits.length ≤
      MAX_ACTIVE_QUBITS ∧
    (MAX_ACTIVE_QUBITS ≤ (mkGame 0 0).qubits.length →
      (mkGame 0 0).spawn_qubit (fun _ => (0, 0)) 0 = mkGame 0 0) :=
  claim5_hazard_cap (mkGame 0 0) (fun _ => (0, 0)) 0 0 (Reachable.init 0 0)

/-- Claim C9: in every reachable state the `win` and `lose` flags are
never both set, and `running` is set exactly when neither is — so the
derived phase in {Playing, Won, Lost} is well defined. -/
theorem claim9_phase_flags (g : GameState) (h : Reachable g) :
    ¬(g.win = true ∧ g.lose = true) ∧
    (g.running = true ↔ (g.win = false ∧ g.lose = false)) := by
  obtain ⟨_, _, _, _, hr, hw⟩ := reachable_inv h
  constructor
  · rintro ⟨h1, h2⟩
    rw [h1, h2] at hw
    simp at hw
  · rw [hr]
    cases g.win <;> cases g.lose <;> simp

/-- Witness for C9 at the freshly constructed game. -/
theorem claim9_witness :
    ¬((mkGame 0 0).win = true ∧ (mkGame 0 0).lose = true) ∧
    ((mkGame 0 0).running = true ↔
      ((mkGame 0 0).win = false ∧ (mkGame 0 0).lose = false)) :=
  claim9_phase_flags (mkGame 0 0) (Reachable.init 0 0)

/-- Claim C1: from a Playing, unpaused state (flags `running = true`,
`win = lose = false` — for reachable states `running` holds exactly in
phase Playing, see the C9 theorem), a `try_move` whose in-bounds
candidate destination is the goal tile ends in phase Lost when some
qubit alive at the move's time occupies that tile, and in phase Won
otherwise: the hazard-collision check is evaluated before the goal
check in every call. -/
theorem claim1_goal_move (g : GameState) (dx dy : ℤ) (now : ℚ)
    (hrun : g.running = true) (hwin : g.win = false)
    (hlose : g.lose = false) (hpause : g.pause = false)
    (hin : inBounds (g.player.1 + dx, g.player.2 + dy))
    (hgoal : (g.player.1 + dx, g.player.2 + dy) = g.goal) :
    (g.try_move dx dy now).phase =
      if g.qubits.any (fun q => q.grid_pos = g.goal && q.is_alive now)
      then Phase.Lost else Phase.Won := by
  have hguard : (g.running && !g.pause) = true := by rw [hrun, hpause]; rfl
  unfold GameState.try_move
  rw [if_pos hguard]
  dsimp only
  rw [if_pos hin, hgoal]
  by_cases hc :
      (g.qubits.any fun q => q.grid_pos = g.goal && q.is_alive now) = true
  · rw [if_pos hc, if_pos hc]
    unfold GameState.phase
    dsimp only
    rw [hwin]
    rfl
  · rw [if_neg hc, if_neg hc, if_pos rfl]
    unfold GameState.phase
    rfl

/-- A Playing state with the player one tile left of the goal and a
qubit sitting on the goal tile, spawned at time 0. -/
def claim1State : GameState :=
  { start := (0, (GRID_ROWS : ℤ) - 1)
    goal := ((GRID_COLS : ℤ) - 1, 0)
    player := ((GRID_COLS : ℤ) - 2, 0)
    qubits := [⟨((GRID_COLS : ℤ) - 1, 0), 0, QUBIT_LIFETIME⟩]
    start_time := 0
    next_spawn_time := 1
    running := true
    win := false
    lose := false
    pause := false }

unseal Rat.add Rat.sub Rat.mul Rat.inv Rat.ofScientific in
/-- Witness for C1: moving right onto the goal tile of `claim1State`. -/
theorem claim1_witness :
    (claim1State.try_move 1 0 (1/2)).phase =
      if claim1State.qubits.any
          (fun q => q.grid_pos = claim1State.goal && q.is_alive (1/2))
      then Phase.Lost else Phase.Won :=
  claim1_goal_move claim1State 1 0 (1/2) rfl rfl rfl rfl (by decide)
    (by decide)

/-- Claim C4: from a Playing state (`running = true`,
`win = lose = false`), an `update` at a time `now` with
`now - start_time ≥ TOTAL_TIME` ends the run with phase Lost and
`running = false`; and once `running` is cleared no later `update` ever
changes the phase again, so the Lost transition happens exactly once per
run. -/
theorem claim4_timeout (g : GameState) (draws : ℕ → ℕ × ℕ) (d now : ℚ)
    (hrun : g.running = true) (hwin : g.win = false)
    (hlose : g.lose = false)
    (helapsed : TOTAL_TIME ≤ now - g.start_time) :
    ((g.update draws d now).phase = Phase.Lost ∧
      (g.update draws d now).running = false) ∧
    ∀ (g2 : GameState) (draws2 : ℕ → ℕ × ℕ) (d2 now2 : ℚ),
      g2.running = false →
        ((g2.update draws2 d2 now2).phase = g2.phase ∧
          (g2.update draws2 d2 now2).running = false) := by
  constructor
  · have ht : TOTAL_TIME - (now - g.start_time) ≤ 0 := by linarith
    obtain ⟨hr1, hl1⟩ := update_timeout draws d now g hrun ht
    have hw1 : (g.update draws d now).win = g.win :=
      (update_flags draws d now g).1
    refine ⟨?_, hr1⟩
    unfold GameState.phase
    rw [hw1, hwin, hl1]
    rfl
  · intro g2 draws2 d2 now2 h2
    obtain ⟨hr2, hw2, hl2⟩ := update_not_running draws2 d2 now2 g2 h2
    constructor
    · unfold GameState.phase
      rw [hw2, hl2]
    · exact hr2

/-- A Playing state whose time budget is exhausted at `now = 45`. -/
def claim4State : GameState := mkGame 0 1

unseal Rat.add Rat.sub Rat.mul Rat.inv Rat.ofScientific in
/-- Witness for C4: updating `claim4State` at `now = 45`, exactly
`TOTAL_TIME` after its start time. -/
theorem claim4_witness :
    (((claim4State.update (fun _ => (0, 0)) 1 45).phase = Phase.Lost ∧
      (claim4State.update (fun _ => (0, 0)) 1 45).running = false) ∧
    ∀ (g2 : GameState) (draws2 : ℕ → ℕ × ℕ) (d2 now2 : ℚ),
      g2.running = false →
        ((g2.update draws2 d2 now2).phase = g2.phase ∧
          (g2.update draws2 d2 now2).running = false)) :=
  claim4_timeout claim4State (fun _ => (0, 0)) 1 45 rfl rfl rfl (by decide)

/-- Claim C6: any hazard of the active set whose lifetime has elapsed at
`now` (`now - spawn_time ≥ lifetime`) is absent from the active set when
`update now` returns. -/
theorem claim6_purge (g : GameState) (q : Qubit) (draws : ℕ → ℕ × ℕ)
    (d now : ℚ) (hq : q ∈ g.qubits)
    (hdead : q.lifetime ≤ now - q.spawn_time) :
    q ∉ (g.update draws d now).qubits := by
  intro hmem
  have halive := update_mem_alive draws d now g q hmem
  unfold Qubit.is_alive Qubit.age at halive
  simp only [decide_eq_true_eq] at halive
  linarith

/-- A game holding one qubit that is already expired at `now = 2`. -/
def claim6State : GameState :=
  { mkGame 0 1 with qubits := [⟨(3, 3), 0, 1⟩] }

unseal Rat.add Rat.sub Rat.mul Rat.inv Rat.ofScientific in
/-- Witness for C6: the expired qubit of `claim6State` is gone after
`update` at `now = 2`. -/
theorem claim6_witness :
    (⟨(3, 3), 0, 1⟩ : Qubit) ∉
      (claim6State.update (fun _ => (0, 0)) 1 2).qubits :=
  claim6_purge claim6State ⟨(3, 3), 0, 1⟩ (fun _ => (0, 0)) 1 2
    (by decide) (by decide)

unseal Rat.add Rat.sub Rat.mul Rat.inv Rat.ofScientific in
/-- Counterexample to C2 as stated: the lifetime of an inserted hazard
is not random.  `spawn_qubit` consumes no random draw for the lifetime —
its only random inputs are the position draws — and two runs over
entirely different draw streams both insert a token whose lifetime is
the fixed configuration constant `QUBIT_LIFETIME`. -/
theorem claim2_counterexample :
    ((mkGame 0 2).spawn_qubit (fun _ => (3, 3)) 5).qubits.map
        Qubit.lifetime = [QUBIT_LIFETIME] ∧
    ((mkGame 0 2).spawn_qubit (fun i => (7 * i + 2, 5 * i + 4)) 5).qubits.map
        Qubit.lifetime = [QUBIT_LIFETIME] := by
  constructor <;> decide

/-- Claim C2 (amended): every successful `spawn_qubit` inserts a
`Qubit` stamped with the call's time `now` and the fixed lifetime
`QUBIT_LIFETIME` (its lifetime window is `[now, now + QUBIT_LIFETIME)`,
not a random one); and when all 50 bounded attempts are rejected
(goal tile, or tile occupied by an alive qubit), `spawn_qubit` leaves
the state unchanged and raises no error. -/
theorem claim2_spawn (g : GameState) (draws : ℕ → ℕ × ℕ) (now : ℚ) :
    (∀ q ∈ (g.spawn_qubit draws now).qubits,
      q ∈ g.qubits ∨ (q.spawn_time = now ∧ q.lifetime = QUBIT_LIFETIME)) ∧
    ((∀ j, j < 50 →
        candidate draws j = g.goal ∨
          (g.qubits.any
            (fun h => h.grid_pos = candidate draws j && h.is_alive now))
            = true) →
      g.spawn_qubit draws now = g) := by
  refine ⟨fun q hq => spawn_qubit_mem draws now g q hq, fun h => ?_⟩
  unfold GameState.spawn_qubit
  split
  · rfl
  · rw [spawnAttempts_exhausted draws now g.goal g.qubits 50 0
      (fun j h1 h2 => h j (by omega))]

unseal Rat.add Rat.sub Rat.mul Rat.inv Rat.ofScientific in
/-- Witness for the amended C2 at a token-free exhaustion instance: the
fresh game holds no qubits and every draw of the stream lands on the
goal tile `(9, 0)`, so all 50 attempts are rejected and `spawn_qubit`
returns the state unchanged; the exhaustion hypothesis of the C2
theorem's second conjunct is discharged by evaluation. -/
theorem claim2_witness :
    (mkGame 0 0).spawn_qubit (fun _ => (9, 0)) 3 = mkGame 0 0 :=
  (claim2_spawn (mkGame 0 0) (fun _ => (9, 0)) 3).2 (by decide)

end EscapeQubits
